/-
Verification of the deterministic MMM pipeline core (backend/core of the
repository): column handling, feature engineering (adstock, Hill
saturation, standardization), contribution decomposition, ROI resolution,
sampling diagnostics, and run-directory storage.

Modelling conventions:
* Column names are lists of characters (`Name`), so that prefix tests and
  name construction mirror the Python string operations exactly.
* Floating point numbers are idealized as real numbers (`ℝ`) in the
  numeric pipeline, and as rationals (`ℚ`) in the diagnostics evaluator,
  whose arithmetic is purely field arithmetic and comparisons.
* pandas DataFrames are association lists from column name to the list of
  the column's values.
* Functions that can raise in Python return `Option`.
-/
import Mathlib

namespace MMX

/-! ## Column names -/

/-- Column names, modelled as lists of characters. -/
abbrev Name := List Char

/-- The string prefix used by the dataset for activity (driver) columns. -/
def actStr : Name := "act_".data

/-- The string prefix used by the dataset for control columns. -/
def ctrlStr : Name := "ctrl_".data

/-- The string prefix used by the dataset for spend columns. -/
def spendStr : Name := "spend_".data

/-- The prefix that `build_features` puts on every transformed feature
column (features.py line 175/183: `col_name = f"X_{driver}"`). -/
def xStr : Name := "X_".data

/-- Python's `s.startswith(p)`, on character lists: `hasPrefix p s`. -/
def hasPrefix : Name → Name → Bool
  | [], _ => true
  | _ :: _, [] => false
  | p :: ps, c :: cs => p = c && hasPrefix ps cs

/-- Fuel-indexed worker for `pyReplace`; the fuel is the length of the
scanned list, so it never runs out. -/
def pyReplaceAux (old new : Name) : ℕ → Name → Name
  | _, [] => []
  | 0, l => l
  | fuel + 1, c :: rest =>
    if hasPrefix old (c :: rest) then
      new ++ pyReplaceAux old new fuel (List.drop (old.length - 1) rest)
    else
      c :: pyReplaceAux old new fuel rest

/-- Python's `s.replace(old, new)`: replace every non-overlapping
occurrence of `old` in `s` by `new`, scanning left to right.  (Python's
behaviour for an empty `old` is irrelevant here: the source only replaces
the non-empty literal `"act_"`.) -/
def pyReplace (old new s : Name) : Name :=
  if old = [] then s else pyReplaceAux old new s.length s

/-! ## Diagnostics evaluator (diagnostics.py, `compute_diagnostics`)

The evaluator consumes summary series extracted from the posterior
`InferenceData`.  `rhatVals`, `essBulkVals` and `essTailVals` are the
flattened per-parameter statistic values gathered by the loops over
`var_names` (lines 62-111); `diverging`, `energy` and `treeSize` model
`trace.sample_stats` fields that may be absent (the `hasattr`/`in`
guards). -/

/-- Input statistics for `compute_diagnostics`. -/
structure PosteriorStats where
  rhatVals : List ℚ
  essBulkVals : List ℚ
  essTailVals : List ℚ
  diverging : Option (List Bool)
  energy : Option (List (List ℚ))
  treeSize : Option (List ℕ)
  maxTreedepthMeta : ℕ
deriving DecidableEq

/-- Overall diagnostics status (diagnostics.py lines 46, 81, 140). -/
inductive DiagStatus where
  | PASS
  | WARNING
deriving DecidableEq, Repr

/-- One entry of the `warnings` list.  Each constructor stands for the
human-readable warning string appended at the corresponding site of
`compute_diagnostics`, and carries the numeric value interpolated into
that string. -/
inductive DiagWarning where
  | rhatHigh (maxRhat : ℚ)
  | essBulkLow (minEss : ℚ)
  | essTailLow (minEss : ℚ)
  | divergent (n : ℕ)
  | ebfmiLow (minEbfmi : ℚ)
  | treeDepthHigh (rate : ℚ)
deriving DecidableEq, Repr

/-- Discriminator: is this the R-hat warning? -/
def DiagWarning.isRhat : DiagWarning → Bool
  | .rhatHigh _ => true
  | _ => false

/-- Discriminator: is this the bulk-ESS warning? -/
def DiagWarning.isEssBulk : DiagWarning → Bool
  | .essBulkLow _ => true
  | _ => false

/-- Discriminator: is this the tail-ESS warning? -/
def DiagWarning.isEssTail : DiagWarning → Bool
  | .essTailLow _ => true
  | _ => false

/-- Discriminator: is this the divergence warning? -/
def DiagWarning.isDivergent : DiagWarning → Bool
  | .divergent _ => true
  | _ => false

/-- Discriminator: is this the E-BFMI warning? -/
def DiagWarning.isEbfmi : DiagWarning → Bool
  | .ebfmiLow _ => true
  | _ => false

/-- Discriminator: is this the max-tree-depth warning? -/
def DiagWarning.isTreeDepth : DiagWarning → Bool
  | .treeDepthHigh _ => true
  | _ => false

/-- Running maximum `max_rhat` of all R-hat values, started at `0.0`
(diagnostics.py lines 60, 75). -/
def maxRhatOf (s : PosteriorStats) : ℚ :=
  s.rhatVals.foldl max 0

/-- The running minimum started at `float('inf')` (lines 89-90, 110-111):
`none` models the untouched infinity of an empty value list. -/
def listMin : List ℚ → Option ℚ
  | [] => none
  | v :: rest =>
    match listMin rest with
    | none => some v
    | some m => some (min v m)

/-- Statistic `min_ess_bulk` (lines 89, 110). -/
def minEssBulkOf (s : PosteriorStats) : Option ℚ :=
  listMin s.essBulkVals

/-- Statistic `min_ess_tail` (lines 90, 111). -/
def minEssTailOf (s : PosteriorStats) : Option ℚ :=
  listMin s.essTailVals

/-- Population mean, `np.mean`, over a rational list. -/
def ratMean (l : List ℚ) : ℚ := l.sum / l.length

/-- Population variance, `np.var` with ddof = 0, over a rational list. -/
def ratVar (l : List ℚ) : ℚ :=
  (l.map (fun x => (x - ratMean l) ^ 2)).sum / l.length

/-- Successive differences of a series, `np.diff`. -/
def npDiff (l : List ℚ) : List ℚ :=
  List.zipWith (fun a b => b - a) l (l.drop 1)

/-- Per-chain E-BFMI: `np.var(np.diff(e)) / np.var(e)` (line 157). -/
def ebfmiChain (e : List ℚ) : ℚ :=
  ratVar (npDiff e) / ratVar e

/-- Minimum over the per-chain E-BFMI list (line 160).  `none` models the
case of an empty chain list, on which `np.min` would fail. -/
def minEbfmiOf (chains : List (List ℚ)) : Option ℚ :=
  listMin (chains.map ebfmiChain)

/-- Number of divergent transitions: `np.sum(divergences)` (line 132). -/
def nDivergencesOf (flags : List Bool) : ℕ := flags.count true

/-- Fraction of draws whose tree size reached `2 ^ int(log2(max_treedepth))`
(lines 180-184). -/
def maxDepthRateOf (meta : ℕ) (sizes : List ℕ) : ℚ :=
  let maxTreeSize := 2 ^ Nat.log2 meta
  ((sizes.countP (fun v => maxTreeSize ≤ v)) : ℚ) / (sizes.length : ℚ)

/-- The diagnostics report assembled by `compute_diagnostics`: the overall
status, the warning list in append order, and the numeric summary fields
saved in `diagnostics.json` (`none` models the JSON `null` written when a
`sample_stats` field is absent). -/
structure DiagReport where
  overallStatus : DiagStatus
  warnings : List DiagWarning
  maxRhat : ℚ
  minEssBulk : Option ℚ
  minEssTail : Option ℚ
  nDivergences : Option ℕ
  divergenceRate : Option ℚ
  minEbfmi : Option ℚ
  maxTreeDepthRate : Option ℚ
deriving DecidableEq

/-- Warning segment of check 1 (diagnostics.py lines 80-84): appended when
`max_rhat > 1.01`. -/
def wRhat (s : PosteriorStats) : List DiagWarning :=
  if maxRhatOf s > 101/100 then [.rhatHigh (maxRhatOf s)] else []

/-- Warning segment of check 2a (lines 119-122): appended when
`min_ess_bulk < 400`; an absent minimum is the untouched infinity. -/
def wEssBulk (s : PosteriorStats) : List DiagWarning :=
  match minEssBulkOf s with
  | some v => if v < 400 then [.essBulkLow v] else []
  | none => []

/-- Warning segment of check 2b (lines 124-127). -/
def wEssTail (s : PosteriorStats) : List DiagWarning :=
  match minEssTailOf s with
  | some v => if v < 400 then [.essTailLow v] else []
  | none => []

/-- Warning segment of check 3 (lines 139-144): appended when the
divergence count is positive, provided `diverging` is available. -/
def wDivergent (s : PosteriorStats) : List DiagWarning :=
  match s.diverging with
  | some flags => if 0 < nDivergencesOf flags then [.divergent (nDivergencesOf flags)] else []
  | none => []

/-- The `min` E-BFMI recorded by check 4, when energy data is available. -/
def minEbfmiRep (s : PosteriorStats) : Option ℚ :=
  match s.energy with
  | some chains => minEbfmiOf chains
  | none => none

/-- Warning segment of check 4 (lines 169-173): appended when the minimum
per-chain E-BFMI is below `0.2`. -/
def wEbfmi (s : PosteriorStats) : List DiagWarning :=
  match minEbfmiRep s with
  | some v => if v < 1/5 then [.ebfmiLow v] else []
  | none => []

/-- The max-tree-depth hit rate recorded by check 5, when tree sizes are
available. -/
def depthRateRep (s : PosteriorStats) : Option ℚ :=
  match s.treeSize with
  | some sizes => some (maxDepthRateOf s.maxTreedepthMeta sizes)
  | none => none

/-- Warning segment of check 5 (lines 188-192): appended when more than 1%
of draws hit the maximum tree depth. -/
def wTreeDepth (s : PosteriorStats) : List DiagWarning :=
  match depthRateRep s with
  | some r => if r > 1/100 then [.treeDepthHigh r] else []
  | none => []

/-- Divergence count recorded in the report (`n_divergences`, lines
134 and 146). -/
def nDivergencesRep (s : PosteriorStats) : Option ℕ :=
  match s.diverging with
  | some flags => some (nDivergencesOf flags)
  | none => none

/-- Divergence rate recorded in the report (line 135). -/
def divergenceRateRep (s : PosteriorStats) : Option ℚ :=
  match s.diverging with
  | some flags => some ((nDivergencesOf flags : ℚ) / (flags.length : ℚ))
  | none => none

/-- The overall status: initialized to PASS (line 46), set to WARNING by
the R-hat check (line 81) and by the divergence check (line 140).  The
ESS, E-BFMI and tree-depth checks never write `overall_status`. -/
def statusOf (s : PosteriorStats) : DiagStatus :=
  let status1 : DiagStatus := if maxRhatOf s > 101/100 then .WARNING else .PASS
  match s.diverging with
  | some flags => if 0 < nDivergencesOf flags then .WARNING else status1
  | none => status1

/-- Shallow embedding of `compute_diagnostics` (diagnostics.py lines
44-210) on the summary statistics extracted from the posterior: the five
checks append their warning segments in source order, and the report
carries the recorded summary fields. -/
def compute_diagnostics (s : PosteriorStats) : DiagReport :=
  { overallStatus := statusOf s
    warnings := wRhat s ++ wEssBulk s ++ wEssTail s ++ wDivergent s ++ wEbfmi s ++ wTreeDepth s
    maxRhat := maxRhatOf s
    minEssBulk := minEssBulkOf s
    minEssTail := minEssTailOf s
    nDivergences := nDivergencesRep s
    divergenceRate := divergenceRateRep s
    minEbfmi := minEbfmiRep s
    maxTreeDepthRate := depthRateRep s }

/-! ## Storage layer (storage.py) and the run-status endpoint (api/runs.py)

The filesystem is modelled as the list of existing paths.  `get_run_dir`
calls `run_dir.mkdir(exist_ok=True, parents=True)` before returning the
path (storage.py lines 16-20), so it returns the updated filesystem
alongside the path. -/

/-- Filesystem state: the list of paths that exist. -/
abbrev FileSys := List Name

/-- Path of the artifacts root, `ARTIFACTS_DIR` (storage.py line 8). -/
def artifactsDir : Name := "artifacts".data

/-- Path of a run's directory: `ARTIFACTS_DIR / run_id` (line 18). -/
def runDirPath (runId : Name) : Name := artifactsDir ++ "/".data ++ runId

/-- Path of a run's `run_spec.json` (api/runs.py line 186). -/
def runSpecPath (runId : Name) : Name := runDirPath runId ++ "/run_spec.json".data

/-- Path existence, `Path.exists()`. -/
def pathExists (fs : FileSys) (p : Name) : Bool := decide (p ∈ fs)

/-- Embedding of `get_run_dir` (storage.py lines 16-20): the directory is
created (`mkdir(exist_ok=True, parents=True)`) as a side effect of
computing the path. -/
def get_run_dir (fs : FileSys) (runId : Name) : FileSys × Name :=
  let d := runDirPath runId
  (if d ∈ fs then fs else d :: fs, d)

/-- Embedding of `run_exists` (storage.py lines 66-68):
`get_run_dir(run_id).exists()`. -/
def run_exists (fs : FileSys) (runId : Name) : FileSys × Bool :=
  let r := get_run_dir fs runId
  (r.1, pathExists r.1 r.2)

/-- Outcome of the `GET /runs/run_id/status` endpoint, as far as the
not-found logic is concerned. -/
inductive StatusOutcome where
  /-- The endpoint's 404 branch: `run_dir.exists()` returned false. -/
  | notFound
  /-- Loading `run_spec.json` raised because the file does not exist. -/
  | missingSpec
  /-- The spec file was loaded; the endpoint builds a `RunInfo` reply. -/
  | ok
deriving DecidableEq, Repr

/-- Embedding of the not-found logic of `get_run_status` (api/runs.py
lines 180-200): it calls `get_run_dir` (creating the directory), 404s only
if the directory does not exist, then loads `run_spec.json`
(`load_json` opens the file and raises if it is absent).  The status
document itself is read through `RunStatus.get`, which substitutes a
default when missing, so it cannot fail. -/
def get_run_status (fs : FileSys) (runId : Name) : FileSys × StatusOutcome :=
  let r := get_run_dir fs runId
  if pathExists r.1 r.2 = false then (r.1, .notFound)
  else if pathExists r.1 (runSpecPath runId) = false then (r.1, .missingSpec)
  else (r.1, .ok)

/-! ## Canonicalisation: column schema (canonicalize.py)

Claims about name resolution only need the column schema of the canonical
table, which `canonicalize_dataset` determines purely from the raw
dataframe's column names (lines 37-39, 46-57, 60-63): `groupby` keeps the
aggregated columns in `agg_dict` insertion order (`sales`, activity,
control, spend), `reset_index` puts `period_start` first, and a `grain`
column is appended. -/

/-- Name of the period column. -/
def periodStartName : Name := "period_start".data

/-- Name of the target column of the canonical table. -/
def salesName : Name := "sales".data

/-- Name of the grain metadata column. -/
def grainName : Name := "grain".data

/-- Column names of the canonical table produced by
`canonicalize_dataset` from a raw table with columns `raw`. -/
def canonicalCols (raw : List Name) : List Name :=
  periodStartName :: salesName ::
    (raw.filter (hasPrefix actStr) ++ raw.filter (hasPrefix ctrlStr)
      ++ raw.filter (hasPrefix spendStr)) ++ [grainName]

/-- The `spend` entry of the `column_info.json` artifact
(canonicalize.py line 73): the raw columns with the spend prefix. -/
def columnInfoSpend (raw : List Name) : List Name :=
  raw.filter (hasPrefix spendStr)

/-! ## Feature engineering (features.py) -/

/-- A dataframe: an association list from column name to column values. -/
abbrev Table := List (Name × List ℝ)

/-- Column names of a table. -/
def cols (tb : Table) : List Name := tb.map Prod.fst

/-- Values of a column (Python `df[name]`), with junk `[]` when the
column is absent; every use is guarded by a membership test, as in the
source. -/
def getCol (tb : Table) (nm : Name) : List ℝ :=
  ((tb.find? (fun c => c.1 = nm)).map Prod.snd).getD []

noncomputable section

/-- Worker for `apply_adstock`: `y` is the previous output value, and each
step computes `x[t] + decay * y[t-1]` (features.py line 30). -/
def adstockGo (decay : ℝ) : ℝ → List ℝ → List ℝ
  | _, [] => []
  | y, x :: rest => (x + decay * y) :: adstockGo decay (x + decay * y) rest

/-- Embedding of `apply_adstock` (features.py lines 8-32): geometric
adstock, `y[0] = x[0]`, `y[t] = x[t] + decay * y[t-1]`.  The `maxLag`
argument exists in the source signature but is never read.  (On an empty
input the source raises an IndexError at `y[0] = x[0]`; the claims only
concern series of length at least 1.) -/
def apply_adstock (x : List ℝ) (decay : ℝ) (maxLag : ℕ) : List ℝ :=
  match x with
  | [] => []
  | x0 :: rest => x0 :: adstockGo decay x0 rest

/-- Embedding of `apply_hill_saturation` (features.py lines 35-60) at one
sample: the input is clamped to be non-negative, and a denominator that is
exactly zero is replaced by `1e-10` (`np.where(denominator == 0, 1e-10,
denominator)`).  Exponentiation is real exponentiation `Real.rpow`. -/
def apply_hill_saturation (K S x : ℝ) : ℝ :=
  let x' := max x 0
  let denom := K ^ S + x' ^ S
  let denom' := if denom = 0 then 1 / 10 ^ 10 else denom
  x' ^ S / denom'

/-- Value at time `t` of Fourier seasonality column `i` of
`create_fourier_features` (features.py lines 63-86): columns come in
(sin, cos) pairs for harmonics `k = 1..K`. -/
def fourierVal (period : ℕ) (i t : ℕ) : ℝ :=
  let k := i / 2 + 1
  if i % 2 = 0 then Real.sin (2 * Real.pi * k * t / period)
  else Real.cos (2 * Real.pi * k * t / period)

/-- Pandas column mean, `Series.mean()`. -/
def dfMean (l : List ℝ) : ℝ := l.sum / l.length

/-- Pandas column variance, `Series.var()` (ddof = 1). -/
def sampleVar (l : List ℝ) : ℝ :=
  (l.map (fun x => (x - dfMean l) ^ 2)).sum / ((l.length : ℝ) - 1)

/-- Pandas column standard deviation, `Series.std()` (ddof = 1). -/
def sampleStd (l : List ℝ) : ℝ := Real.sqrt (sampleVar l)

/-- Numpy population mean of `0, 1, ..., n-1`. -/
def rangeMean (n : ℕ) : ℝ := (((List.range n).map (fun t => (t : ℝ))).sum) / n

/-- Numpy population standard deviation of `0, 1, ..., n-1` (ddof = 0). -/
def rangeStd (n : ℕ) : ℝ :=
  Real.sqrt ((((List.range n).map (fun t => ((t : ℝ) - rangeMean n) ^ 2)).sum) / n)

/-- The trend column (features.py lines 197-200):
`(trend - trend.mean()) / (trend.std() + 1e-10)` over index `0..n-1`. -/
def trendScaled (n : ℕ) : List ℝ :=
  (List.range n).map (fun t => ((t : ℝ) - rangeMean n) / (rangeStd n + 1 / 10 ^ 10))

/-- The standardisation loop body of `build_features` (features.py lines
209-222): returns the rescaled column together with the `{mean, std}`
scaler parameters it persisted, where a standard deviation below `1e-10`
is replaced by `1.0` before dividing. -/
def standardizeColumn (v : List ℝ) : List ℝ × ℝ × ℝ :=
  let m := dfMean v
  let s0 := sampleStd v
  let s := if s0 < 1 / 10 ^ 10 then 1 else s0
  (v.map (fun x => (x - m) / s), m, s)

/-- Time grain of a run. -/
inductive Grain where
  | WEEK
  | MONTH
deriving DecidableEq

/-- Seasonality periodicity by grain (features.py line 190). -/
def periodOf : Grain → ℕ
  | .WEEK => 52
  | .MONTH => 12

/-- Adstock configuration (`feature_config["adstock"]`), with the source's
defaults already substituted. -/
structure AdstockConfig where
  decayDefault : ℝ
  perChannel : List (Name × ℝ)
  maxLag : ℕ

/-- Saturation configuration (`feature_config["saturation"]`).  `isHill`
models `sat_type == "hill"`; any other declared type applies no
transform. -/
structure SaturationConfig where
  enabled : Bool
  isHill : Bool
  K : ℝ
  S : ℝ

/-- Seasonality configuration (`feature_config["seasonality"]`). -/
structure SeasonalityConfig where
  enabled : Bool
  K : ℕ

/-- The run-spec fields read by `build_features` (features.py lines
119-131), with defaults already substituted. -/
structure RunSpecF where
  grain : Grain
  targetCol : Name
  drivers : List Name
  controls : List Name
  adstock : AdstockConfig
  saturation : SaturationConfig
  seasonality : SeasonalityConfig
  trendEnabled : Bool
  carryoverMonths : ℕ
  estimationMonths : ℕ

/-- Per-channel decay lookup with default (features.py line 163). -/
def lookupDecay (pc : List (Name × ℝ)) (d : Name) (dflt : ℝ) : ℝ :=
  ((pc.find? (fun c => c.1 = d)).map Prod.snd).getD dflt

/-- Window size `min_periods_needed` (features.py lines 135-136); the
float product with `52/12` followed by `int(...)` truncation is the
natural-number computation `total * 52 / 12`. -/
def minPeriodsNeeded (spec : RunSpecF) : ℕ :=
  let total := spec.carryoverMonths + spec.estimationMonths
  match spec.grain with
  | .WEEK => total * 52 / 12
  | .MONTH => total

/-- Name of the raw target column of the feature table. -/
def yName : Name := "y".data

/-- Name of the log target column of the feature table. -/
def yLogName : Name := "y_log".data

/-- Name of the trend column. -/
def trendName : Name := "trend".data

/-- Prefix of the seasonality columns. -/
def seasonStr : Name := "seasonality_".data

/-- Name of seasonality column `i` (features.py line 194). -/
def seasonalityName (i : ℕ) : Name := seasonStr ++ Nat.toDigits 10 i

/-- Feature column name `X_<col>` (features.py lines 175, 183). -/
def xName (d : Name) : Name := xStr ++ d

/-- The `feature_metadata.json` document (features.py lines 231-238). -/
structure FeatureMeta where
  nPeriods : ℕ
  driver_features : List Name
  control_features : List Name
  seasonality_features : List Name
  trend_features : List Name
  target : Name

/-- Result of `build_features`: the feature table, the persisted scaler
parameters (per standardized column: mean and the std actually divided
by), and the feature metadata. -/
structure BuildResult where
  features : Table
  scaler : List (Name × (ℝ × ℝ))
  meta : FeatureMeta

/-- Shallow embedding of `build_features` (features.py lines 89-242).
Returns `none` when the source would raise a KeyError reading the
`period_start` or target column of the canonical table; a configured
driver or control column that is absent from the canonical table is
silently skipped (lines 159-160, 182), raising nothing. -/
def build_features (spec : RunSpecF) (canonical : Table) : Option BuildResult :=
  if periodStartName ∈ cols canonical ∧ spec.targetCol ∈ cols canonical then
    -- time window filtering (lines 134-140): keep the most recent periods
    let nAll := (getCol canonical periodStartName).length
    let minP := minPeriodsNeeded spec
    let trim : List ℝ → List ℝ :=
      fun l => if minP < nAll then l.drop (nAll - minP) else l
    let ps := trim (getCol canonical periodStartName)
    let y := trim (getCol canonical spec.targetCol)
    let yLog := y.map (fun v => Real.log (v + 1))
    -- adstock + optional saturation per retained driver (lines 157-177)
    let keptDrivers := spec.drivers.filter (fun d => decide (d ∈ cols canonical))
    let driverCols : Table := keptDrivers.map (fun d =>
      let x := trim (getCol canonical d)
      let decay := lookupDecay spec.adstock.perChannel d spec.adstock.decayDefault
      let xa := apply_adstock x decay spec.adstock.maxLag
      let xsat := if spec.saturation.enabled && spec.saturation.isHill
        then xa.map (apply_hill_saturation spec.saturation.K spec.saturation.S)
        else xa
      (xName d, xsat))
    -- retained controls, copied unchanged (lines 180-185)
    let keptControls := spec.controls.filter (fun c => decide (c ∈ cols canonical))
    let controlCols : Table := keptControls.map (fun c => (xName c, trim (getCol canonical c)))
    let n := ps.length
    -- seasonality (lines 188-194)
    let seasonCols : Table :=
      if spec.seasonality.enabled then
        (List.range (2 * spec.seasonality.K)).map (fun i =>
          (seasonalityName i, (List.range n).map (fourierVal (periodOf spec.grain) i)))
      else []
    -- trend (lines 197-200)
    let trendCols : Table := if spec.trendEnabled then [(trendName, trendScaled n)] else []
    let features0 : Table :=
      (periodStartName, ps) :: (yName, y) :: (yLogName, yLog) ::
        (driverCols ++ controlCols ++ seasonCols ++ trendCols)
    -- standardisation of the X_ columns in place (lines 206-222)
    let features := features0.map
      (fun c => if hasPrefix xStr c.1 then (c.1, (standardizeColumn c.2).1) else c)
    let scaler := (features0.filter (fun c => hasPrefix xStr c.1)).map
      (fun c => (c.1, (standardizeColumn c.2).2))
    some { features := features
           scaler := scaler
           meta := { nPeriods := n
                     driver_features := keptDrivers.map xName
                     control_features := keptControls.map xName
                     seasonality_features := (cols features0).filter (hasPrefix seasonStr)
                     trend_features := if trendName ∈ cols features0 then [trendName] else []
                     target := yLogName } }
  else none

end

/-! ## Model metadata (model_pymc.py, `train_bayesian_mmm`) -/

/-- The name-level fields of the `model_metadata.json` document. -/
structure ModelMetadata where
  channelNames : List Name
  controlNames : List Name

/-- Metadata written by `train_bayesian_mmm` (model_pymc.py lines 52-58
and 156-167): `channel_names` is the feature metadata's `driver_features`
list verbatim, and `control_names` concatenates control, seasonality and
trend feature names. -/
def trainModelMetadata (meta : FeatureMeta) : ModelMetadata :=
  { channelNames := meta.driver_features
    controlNames := meta.control_features ++ meta.seasonality_features ++ meta.trend_features }

/-! ## Contribution decomposition (contributions.py, `compute_contributions`)

All columns of the contributions table are elementwise in the period
index, so the decomposition is embedded per period: at a period the
control features take values `xc` (one per control) and the channel
features take values `xs` (one per channel), with posterior mean
coefficient vectors `gamma` and `beta` and posterior mean intercept
`mu`. -/

noncomputable section

/-- Running total `total_control_contrib` at one period
(contributions.py lines 72-86): the sum of `gamma[i] * X_ctrl[i]`. -/
def totalControlLogAt (gamma xc : List ℝ) : ℝ :=
  (List.zipWith (fun g x => g * x) gamma xc).sum

/-- Column `baseline_intercept` (line 68): `exp(intercept_mean) - 1`. -/
def baselineInterceptC (mu : ℝ) : ℝ := Real.exp mu - 1

/-- Column `baseline_controls` (line 90):
`exp(intercept_mean + total_control_contrib) - exp(intercept_mean)`. -/
def baselineControlsC (mu tcl : ℝ) : ℝ := Real.exp (mu + tcl) - Real.exp mu

/-- Column `channel_<name>` at one period (lines 113-116):
`exp(baseline_log + beta*X) - exp(baseline_log)` with
`baseline_log = intercept_mean + total_control_contrib`. -/
def channelContribC (mu tcl b x : ℝ) : ℝ :=
  Real.exp (mu + tcl + b * x) - Real.exp (mu + tcl)

/-- All per-channel contributions at one period. -/
def channelContribsC (mu tcl : ℝ) (beta xs : List ℝ) : List ℝ :=
  List.zipWith (fun b x => channelContribC mu tcl b x) beta xs

/-- Column `y_predicted` (lines 121-127):
`exp(intercept_mean + total_control_contrib + sum of beta*X) - 1`. -/
def yPredictedC (mu tcl : ℝ) (beta xs : List ℝ) : ℝ :=
  Real.exp (mu + tcl + (List.zipWith (fun b x => b * x) beta xs).sum) - 1

/-- Column `residual` (line 130): `y_actual - y_predicted`. -/
def residualC (yActual yPredicted : ℝ) : ℝ := yActual - yPredicted

end

/-- Feature column consulted by `compute_contributions` for a channel
(contributions.py line 98): `f"X_{channel_name}"`. -/
def contribFeatureCol (channelName : Name) : Name := xName channelName

/-- Contribution column name (contributions.py line 118). -/
def channelColName (channelName : Name) : Name := "channel_".data ++ channelName

/-! ## ROI metrics (contributions.py, `compute_roi_metrics`) -/

/-- Per-channel entry of the `roi_metrics.json` document.  In the source
the `ok` entry also carries `roas` (equal to `roi`, line 266) and a
formatted `efficiency` string; both are determined by the fields here. -/
inductive RoiEntry where
  /-- Spend and contribution data both resolved (lines 262-268). -/
  | ok (totalSpend totalContribution roi : ℝ)
  /-- A spend column resolved but the contribution column is missing
  (lines 270-272). -/
  | noContribData
  /-- No spend column resolved; carries the last name tried
  (lines 274-276). -/
  | noSpendCol (expected : Name)

/-- The `roi_metrics.json` document: `topLevelError` models the presence
of the single top-level `error` field (lines 227-230), `channels` the
per-channel map. -/
structure RoiMetrics where
  topLevelError : Bool
  channels : List (Name × RoiEntry)

/-- Spend column resolution for one channel (contributions.py lines
243-250): substitute the activity prefix by the spend prefix anywhere in
the channel name; if the result is not a canonical column, fall back to
prefixing the bare channel name with `spend_`. -/
def resolveSpendCol (canonicalColumns : List Name) (channelName : Name) : Name :=
  let s1 := pyReplace actStr spendStr channelName
  if s1 ∈ canonicalColumns then s1 else spendStr ++ channelName

noncomputable section

/-- Per-channel body of the ROI loop (contributions.py lines 243-276). -/
def roiEntryFor (canonical : Table) (contributions : Table) (channelName : Name) : RoiEntry :=
  let spendColName := resolveSpendCol (cols canonical) channelName
  if spendColName ∈ cols canonical then
    let totalSpend := (getCol canonical spendColName).sum
    let contribCol := channelColName channelName
    if contribCol ∈ cols contributions then
      let totalContribution := (getCol contributions contribCol).sum
      let roi := if totalSpend > 0 then totalContribution / totalSpend else 0
      .ok totalSpend totalContribution roi
    else .noContribData
  else .noSpendCol spendColName

/-- Shallow embedding of `compute_roi_metrics` (contributions.py lines
196-280): when `column_info.json` lists no spend columns the whole
artifact is a single top-level error with an empty channel map (lines
225-232); otherwise every channel of the model metadata gets its own
entry. -/
def compute_roi_metrics (canonical : Table) (contributions : Table)
    (spendInfo : List Name) (channelNames : List Name) : RoiMetrics :=
  if spendInfo = [] then { topLevelError := true, channels := [] }
  else
    { topLevelError := false
      channels := channelNames.map (fun ch => (ch, roiEntryFor canonical contributions ch)) }

end

/-! ## Helper lemmas about the diagnostics report -/

lemma diag_warnings (s : PosteriorStats) :
    (compute_diagnostics s).warnings =
      wRhat s ++ wEssBulk s ++ wEssTail s ++ wDivergent s ++ wEbfmi s ++ wTreeDepth s := rfl

lemma countP_zero_of_shape (l : List DiagWarning) (p : DiagWarning → Bool)
    (h : ∀ w ∈ l, p w = false) : l.countP p = 0 := by
  rw [List.countP_eq_zero]
  intro a ha
  simp [h a ha]

lemma mem_wRhat {s : PosteriorStats} {w : DiagWarning} (h : w ∈ wRhat s) :
    ∃ v, w = .rhatHigh v := by
  unfold wRhat at h
  split at h
  · exact ⟨_, List.mem_singleton.mp h⟩
  · simp at h

lemma mem_wEssBulk {s : PosteriorStats} {w : DiagWarning} (h : w ∈ wEssBulk s) :
    ∃ v, w = .essBulkLow v := by
  unfold wEssBulk at h
  rcases hm : minEssBulkOf s with _ | v <;> simp only [hm] at h
  · simp at h
  · split at h
    · exact ⟨_, List.mem_singleton.mp h⟩
    · simp at h

lemma mem_wEssTail {s : PosteriorStats} {w : DiagWarning} (h : w ∈ wEssTail s) :
    ∃ v, w = .essTailLow v := by
  unfold wEssTail at h
  rcases hm : minEssTailOf s with _ | v <;> simp only [hm] at h
  · simp at h
  · split at h
    · exact ⟨_, List.mem_singleton.mp h⟩
    · simp at h

lemma mem_wDivergent {s : PosteriorStats} {w : DiagWarning} (h : w ∈ wDivergent s) :
    ∃ n, w = .divergent n := by
  unfold wDivergent at h
  rcases hm : s.diverging with _ | flags <;> simp only [hm] at h
  · simp at h
  · split at h
    · exact ⟨_, List.mem_singleton.mp h⟩
    · simp at h

lemma mem_wEbfmi {s : PosteriorStats} {w : DiagWarning} (h : w ∈ wEbfmi s) :
    ∃ v, w = .ebfmiLow v := by
  unfold wEbfmi at h
  rcases hm : minEbfmiRep s with _ | v <;> simp only [hm] at h
  · simp at h
  · split at h
    · exact ⟨_, List.mem_singleton.mp h⟩
    · simp at h

lemma mem_wTreeDepth {s : PosteriorStats} {w : DiagWarning} (h : w ∈ wTreeDepth s) :
    ∃ v, w = .treeDepthHigh v := by
  unfold wTreeDepth at h
  rcases hm : depthRateRep s with _ | v <;> simp only [hm] at h
  · simp at h
  · split at h
    · exact ⟨_, List.mem_singleton.mp h⟩
    · simp at h

lemma diag_count_rhat (s : PosteriorStats) :
    (compute_diagnostics s).warnings.countP (fun w => w.isRhat) =
      if maxRhatOf s > 101/100 then 1 else 0 := by
  rw [diag_warnings]
  simp only [List.countP_append]
  rw [countP_zero_of_shape (wEssBulk s) (fun w => w.isRhat) (fun w hw => by obtain ⟨v, rfl⟩ := mem_wEssBulk hw; rfl),
    countP_zero_of_shape (wEssTail s) (fun w => w.isRhat) (fun w hw => by obtain ⟨v, rfl⟩ := mem_wEssTail hw; rfl),
    countP_zero_of_shape (wDivergent s) (fun w => w.isRhat) (fun w hw => by obtain ⟨v, rfl⟩ := mem_wDivergent hw; rfl),
    countP_zero_of_shape (wEbfmi s) (fun w => w.isRhat) (fun w hw => by obtain ⟨v, rfl⟩ := mem_wEbfmi hw; rfl),
    countP_zero_of_shape (wTreeDepth s) (fun w => w.isRhat) (fun w hw => by obtain ⟨v, rfl⟩ := mem_wTreeDepth hw; rfl)]
  unfold wRhat
  split <;> simp [DiagWarning.isRhat]

lemma diag_count_essBulk (s : PosteriorStats) :
    (compute_diagnostics s).warnings.countP (fun w => w.isEssBulk) =
      match minEssBulkOf s with
      | some v => if v < 400 then 1 else 0
      | none => 0 := by
  rw [diag_warnings]
  simp only [List.countP_append]
  rw [countP_zero_of_shape (wRhat s) (fun w => w.isEssBulk) (fun w hw => by obtain ⟨v, rfl⟩ := mem_wRhat hw; rfl),
    countP_zero_of_shape (wEssTail s) (fun w => w.isEssBulk) (fun w hw => by obtain ⟨v, rfl⟩ := mem_wEssTail hw; rfl),
    countP_zero_of_shape (wDivergent s) (fun w => w.isEssBulk) (fun w hw => by obtain ⟨v, rfl⟩ := mem_wDivergent hw; rfl),
    countP_zero_of_shape (wEbfmi s) (fun w => w.isEssBulk) (fun w hw => by obtain ⟨v, rfl⟩ := mem_wEbfmi hw; rfl),
    countP_zero_of_shape (wTreeDepth s) (fun w => w.isEssBulk) (fun w hw => by obtain ⟨v, rfl⟩ := mem_wTreeDepth hw; rfl)]
  unfold wEssBulk
  rcases hm : minEssBulkOf s with _ | v <;> simp only [hm]
  · simp
  · split <;> simp [DiagWarning.isEssBulk]

lemma diag_count_essTail (s : PosteriorStats) :
    (compute_diagnostics s).warnings.countP (fun w => w.isEssTail) =
      match minEssTailOf s with
      | some v => if v < 400 then 1 else 0
      | none => 0 := by
  rw [diag_warnings]
  simp only [List.countP_append]
  rw [countP_zero_of_shape (wRhat s) (fun w => w.isEssTail) (fun w hw => by obtain ⟨v, rfl⟩ := mem_wRhat hw; rfl),
    countP_zero_of_shape (wEssBulk s) (fun w => w.isEssTail) (fun w hw => by obtain ⟨v, rfl⟩ := mem_wEssBulk hw; rfl),
    countP_zero_of_shape (wDivergent s) (fun w => w.isEssTail) (fun w hw => by obtain ⟨v, rfl⟩ := mem_wDivergent hw; rfl),
    countP_zero_of_shape (wEbfmi s) (fun w => w.isEssTail) (fun w hw => by obtain ⟨v, rfl⟩ := mem_wEbfmi hw; rfl),
    countP_zero_of_shape (wTreeDepth s) (fun w => w.isEssTail) (fun w hw => by obtain ⟨v, rfl⟩ := mem_wTreeDepth hw; rfl)]
  unfold wEssTail
  rcases hm : minEssTailOf s with _ | v <;> simp only [hm]
  · simp
  · split <;> simp [DiagWarning.isEssTail]

lemma diag_count_divergent (s : PosteriorStats) :
    (compute_diagnostics s).warnings.countP (fun w => w.isDivergent) =
      match s.diverging with
      | some flags => if 0 < nDivergencesOf flags then 1 else 0
      | none => 0 := by
  rw [diag_warnings]
  simp only [List.countP_append]
  rw [countP_zero_of_shape (wRhat s) (fun w => w.isDivergent) (fun w hw => by obtain ⟨v, rfl⟩ := mem_wRhat hw; rfl),
    countP_zero_of_shape (wEssBulk s) (fun w => w.isDivergent) (fun w hw => by obtain ⟨v, rfl⟩ := mem_wEssBulk hw; rfl),
    countP_zero_of_shape (wEssTail s) (fun w => w.isDivergent) (fun w hw => by obtain ⟨v, rfl⟩ := mem_wEssTail hw; rfl),
    countP_zero_of_shape (wEbfmi s) (fun w => w.isDivergent) (fun w hw => by obtain ⟨v, rfl⟩ := mem_wEbfmi hw; rfl),
    countP_zero_of_shape (wTreeDepth s) (fun w => w.isDivergent) (fun w hw => by obtain ⟨v, rfl⟩ := mem_wTreeDepth hw; rfl)]
  unfold wDivergent
  rcases hm : s.diverging with _ | flags <;> simp only [hm]
  · simp
  · split <;> simp [DiagWarning.isDivergent]

lemma diag_count_ebfmi (s : PosteriorStats) :
    (compute_diagnostics s).warnings.countP (fun w => w.isEbfmi) =
      match minEbfmiRep s with
      | some v => if v < 1/5 then 1 else 0
      | none => 0 := by
  rw [diag_warnings]
  simp only [List.countP_append]
  rw [countP_zero_of_shape (wRhat s) (fun w => w.isEbfmi) (fun w hw => by obtain ⟨v, rfl⟩ := mem_wRhat hw; rfl),
    countP_zero_of_shape (wEssBulk s) (fun w => w.isEbfmi) (fun w hw => by obtain ⟨v, rfl⟩ := mem_wEssBulk hw; rfl),
    countP_zero_of_shape (wEssTail s) (fun w => w.isEbfmi) (fun w hw => by obtain ⟨v, rfl⟩ := mem_wEssTail hw; rfl),
    countP_zero_of_shape (wDivergent s) (fun w => w.isEbfmi) (fun w hw => by obtain ⟨v, rfl⟩ := mem_wDivergent hw; rfl),
    countP_zero_of_shape (wTreeDepth s) (fun w => w.isEbfmi) (fun w hw => by obtain ⟨v, rfl⟩ := mem_wTreeDepth hw; rfl)]
  unfold wEbfmi
  rcases hm : minEbfmiRep s with _ | v <;> simp only [hm]
  · simp
  · split <;> simp [DiagWarning.isEbfmi]

lemma diag_count_treeDepth (s : PosteriorStats) :
    (compute_diagnostics s).warnings.countP (fun w => w.isTreeDepth) =
      match depthRateRep s with
      | some r => if r > 1/100 then 1 else 0
      | none => 0 := by
  rw [diag_warnings]
  simp only [List.countP_append]
  rw [countP_zero_of_shape (wRhat s) (fun w => w.isTreeDepth) (fun w hw => by obtain ⟨v, rfl⟩ := mem_wRhat hw; rfl),
    countP_zero_of_shape (wEssBulk s) (fun w => w.isTreeDepth) (fun w hw => by obtain ⟨v, rfl⟩ := mem_wEssBulk hw; rfl),
    countP_zero_of_shape (wEssTail s) (fun w => w.isTreeDepth) (fun w hw => by obtain ⟨v, rfl⟩ := mem_wEssTail hw; rfl),
    countP_zero_of_shape (wDivergent s) (fun w => w.isTreeDepth) (fun w hw => by obtain ⟨v, rfl⟩ := mem_wDivergent hw; rfl),
    countP_zero_of_shape (wEbfmi s) (fun w => w.isTreeDepth) (fun w hw => by obtain ⟨v, rfl⟩ := mem_wEbfmi hw; rfl)]
  unfold wTreeDepth
  rcases hm : depthRateRep s with _ | v <;> simp only [hm]
  · simp
  · split <;> simp [DiagWarning.isTreeDepth]

lemma diag_status_iff (s : PosteriorStats) :
    (compute_diagnostics s).overallStatus = .WARNING ↔
      (maxRhatOf s > 101/100 ∨
        ∃ flags, s.diverging = some flags ∧ 0 < nDivergencesOf flags) := by
  show statusOf s = _ ↔ _
  unfold statusOf
  rcases hd : s.diverging with _ | flags <;> simp only [hd]
  · split_ifs with h <;> simp [h]
  · split_ifs with h1 h2 <;> simp_all
/-! ## Claim C2 -/

/-- C2, counterexample: on a posterior whose only violation is a bulk
effective sample size of 100 (max R-hat 1, no divergences), the bulk-ESS
threshold is violated and its warning is appended, yet `overall_status`
stays PASS — so a violated threshold does not imply WARNING status. -/
theorem c2_counterexample_ess_violation_but_pass :
    (compute_diagnostics ⟨[1], [100], [500], some [false, false], none, none, 10⟩).minEssBulk
        = some 100 ∧
    (100 : ℚ) < 400 ∧
    (compute_diagnostics ⟨[1], [100], [500], some [false, false], none, none, 10⟩).warnings
        = [.essBulkLow 100] ∧
    (compute_diagnostics ⟨[1], [100], [500], some [false, false], none, none, 10⟩).overallStatus
        = .PASS := by
  refine ⟨by simp [compute_diagnostics, minEssBulkOf, listMin], by norm_num, ?_, ?_⟩
  · show wRhat _ ++ wEssBulk _ ++ wEssTail _ ++ wDivergent _ ++ wEbfmi _ ++ wTreeDepth _ = _
    rw [show wRhat ⟨[1], [100], [500], some [false, false], none, none, 10⟩ = [] by
        norm_num [wRhat, maxRhatOf, max_def]]
    rw [show wEssBulk ⟨[1], [100], [500], some [false, false], none, none, 10⟩
          = [.essBulkLow 100] by norm_num [wEssBulk, minEssBulkOf, listMin]]
    rw [show wEssTail ⟨[1], [100], [500], some [false, false], none, none, 10⟩ = [] by
        norm_num [wEssTail, minEssTailOf, listMin]]
    rw [show wDivergent ⟨[1], [100], [500], some [false, false], none, none, 10⟩ = [] by
        norm_num [wDivergent, nDivergencesOf]]
    rw [show wEbfmi ⟨[1], [100], [500], some [false, false], none, none, 10⟩ = [] by
        norm_num [wEbfmi, minEbfmiRep]]
    rw [show wTreeDepth ⟨[1], [100], [500], some [false, false], none, none, 10⟩ = [] by
        norm_num [wTreeDepth, depthRateRep]]
    rfl
  · show statusOf ⟨[1], [100], [500], some [false, false], none, none, 10⟩ = .PASS
    norm_num [statusOf, maxRhatOf, nDivergencesOf, max_def]

/-- C2, amended: `overall_status` is WARNING exactly when max R-hat
exceeds 1.01 or the recorded divergence count is positive; the ESS,
E-BFMI and tree-depth violations append their warning but do not change
the overall status.  Every violated check appends exactly one warning
entry, and a non-violated check appends none. -/
theorem c2_overall_status_and_warning_counts (s : PosteriorStats) :
    ((compute_diagnostics s).overallStatus = .WARNING ↔
      (maxRhatOf s > 101/100 ∨
        ∃ flags, s.diverging = some flags ∧ 0 < nDivergencesOf flags)) ∧
    (compute_diagnostics s).warnings.countP (fun w => w.isRhat)
        = (if maxRhatOf s > 101/100 then 1 else 0) ∧
    (compute_diagnostics s).warnings.countP (fun w => w.isEssBulk)
        = (match minEssBulkOf s with
           | some v => if v < 400 then 1 else 0
           | none => 0) ∧
    (compute_diagnostics s).warnings.countP (fun w => w.isEssTail)
        = (match minEssTailOf s with
           | some v => if v < 400 then 1 else 0
           | none => 0) ∧
    (compute_diagnostics s).warnings.countP (fun w => w.isDivergent)
        = (match s.diverging with
           | some flags => if 0 < nDivergencesOf flags then 1 else 0
           | none => 0) ∧
    (compute_diagnostics s).warnings.countP (fun w => w.isEbfmi)
        = (match minEbfmiRep s with
           | some v => if v < 1/5 then 1 else 0
           | none => 0) ∧
    (compute_diagnostics s).warnings.countP (fun w => w.isTreeDepth)
        = (match depthRateRep s with
           | some r => if r > 1/100 then 1 else 0
           | none => 0) :=
  ⟨diag_status_iff s, diag_count_rhat s, diag_count_essBulk s, diag_count_essTail s,
    diag_count_divergent s, diag_count_ebfmi s, diag_count_treeDepth s⟩

/-! ## Claim C6 -/

/-- C6: every diagnostic threshold comparison is strict.  A reported max
R-hat of exactly 1.01 appends no R-hat warning; a reported minimum ESS
(bulk or tail) of exactly 400 appends no ESS warning; a reported minimum
per-chain E-BFMI of exactly 0.2 appends no E-BFMI warning; a recorded
divergence count of exactly 0 appends no divergence warning. -/
theorem c6_thresholds_strict (s : PosteriorStats) :
    ((compute_diagnostics s).maxRhat = 101/100 →
      (compute_diagnostics s).warnings.countP (fun w => w.isRhat) = 0) ∧
    ((compute_diagnostics s).minEssBulk = some 400 →
      (compute_diagnostics s).warnings.countP (fun w => w.isEssBulk) = 0) ∧
    ((compute_diagnostics s).minEssTail = some 400 →
      (compute_diagnostics s).warnings.countP (fun w => w.isEssTail) = 0) ∧
    ((compute_diagnostics s).minEbfmi = some (1/5) →
      (compute_diagnostics s).warnings.countP (fun w => w.isEbfmi) = 0) ∧
    ((compute_diagnostics s).nDivergences = some 0 →
      (compute_diagnostics s).warnings.countP (fun w => w.isDivergent) = 0) := by
  have hR : (compute_diagnostics s).maxRhat = maxRhatOf s := rfl
  have hB : (compute_diagnostics s).minEssBulk = minEssBulkOf s := rfl
  have hT : (compute_diagnostics s).minEssTail = minEssTailOf s := rfl
  have hE : (compute_diagnostics s).minEbfmi = minEbfmiRep s := rfl
  have hD : (compute_diagnostics s).nDivergences = nDivergencesRep s := rfl
  refine ⟨?_, ?_, ?_, ?_, ?_⟩
  · intro h
    rw [hR] at h
    rw [diag_count_rhat, h]
    norm_num
  · intro h
    rw [hB] at h
    rw [diag_count_essBulk, h]
    norm_num
  · intro h
    rw [hT] at h
    rw [diag_count_essTail, h]
    norm_num
  · intro h
    rw [hE] at h
    rw [diag_count_ebfmi, h]
    norm_num
  · intro h
    rw [hD] at h
    unfold nDivergencesRep at h
    rw [diag_count_divergent]
    rcases hd : s.diverging with _ | flags <;> simp only [hd] at h ⊢
    simp only [Option.some_inj] at h
    simp [h]

/-- C6, witness: a posterior with max R-hat exactly 1.01, minimum bulk
and tail ESS exactly 400, one divergence-free draw, and a single energy
chain whose E-BFMI is exactly 1/5, is flagged by none of the five
checks. -/
theorem c6_witness :
    (compute_diagnostics
        ⟨[101/100], [400], [400], some [false], some [[0, 2, 9, 11, 11, 15]], none, 10⟩).maxRhat
      = 101/100 ∧
    (compute_diagnostics
        ⟨[101/100], [400], [400], some [false], some [[0, 2, 9, 11, 11, 15]], none, 10⟩).minEssBulk
      = some 400 ∧
    (compute_diagnostics
        ⟨[101/100], [400], [400], some [false], some [[0, 2, 9, 11, 11, 15]], none, 10⟩).minEssTail
      = some 400 ∧
    (compute_diagnostics
        ⟨[101/100], [400], [400], some [false], some [[0, 2, 9, 11, 11, 15]], none, 10⟩).minEbfmi
      = some (1/5) ∧
    (compute_diagnostics
        ⟨[101/100], [400], [400], some [false], some [[0, 2, 9, 11, 11, 15]], none, 10⟩).nDivergences
      = some 0 ∧
    (compute_diagnostics
        ⟨[101/100], [400], [400], some [false], some [[0, 2, 9, 11, 11, 15]],
          none, 10⟩).warnings.countP (fun w => w.isRhat) = 0 ∧
    (compute_diagnostics
        ⟨[101/100], [400], [400], some [false], some [[0, 2, 9, 11, 11, 15]],
          none, 10⟩).warnings.countP (fun w => w.isEssBulk) = 0 ∧
    (compute_diagnostics
        ⟨[101/100], [400], [400], some [false], some [[0, 2, 9, 11, 11, 15]],
          none, 10⟩).warnings.countP (fun w => w.isEssTail) = 0 ∧
    (compute_diagnostics
        ⟨[101/100], [400], [400], some [false], some [[0, 2, 9, 11, 11, 15]],
          none, 10⟩).warnings.countP (fun w => w.isEbfmi) = 0 ∧
    (compute_diagnostics
        ⟨[101/100], [400], [400], some [false], some [[0, 2, 9, 11, 11, 15]],
          none, 10⟩).warnings.countP (fun w => w.isDivergent) = 0 := by
  have hR : (compute_diagnostics
      ⟨[101/100], [400], [400], some [false], some [[0, 2, 9, 11, 11, 15]], none, 10⟩).maxRhat
      = 101/100 := by
    norm_num [compute_diagnostics, maxRhatOf, max_def]
  have hB : (compute_diagnostics
      ⟨[101/100], [400], [400], some [false], some [[0, 2, 9, 11, 11, 15]], none, 10⟩).minEssBulk
      = some 400 := by
    simp [compute_diagnostics, minEssBulkOf, listMin]
  have hT : (compute_diagnostics
      ⟨[101/100], [400], [400], some [false], some [[0, 2, 9, 11, 11, 15]], none, 10⟩).minEssTail
      = some 400 := by
    simp [compute_diagnostics, minEssTailOf, listMin]
  have hE : (compute_diagnostics
      ⟨[101/100], [400], [400], some [false], some [[0, 2, 9, 11, 11, 15]], none, 10⟩).minEbfmi
      = some (1/5) := by
    norm_num [compute_diagnostics, minEbfmiRep, minEbfmiOf, listMin, ebfmiChain, ratVar,
      ratMean, npDiff]
  have hD : (compute_diagnostics
      ⟨[101/100], [400], [400], some [false], some [[0, 2, 9, 11, 11, 15]], none, 10⟩).nDivergences
      = some 0 := by
    simp [compute_diagnostics, nDivergencesRep, nDivergencesOf]
  have h := c6_thresholds_strict
    ⟨[101/100], [400], [400], some [false], some [[0, 2, 9, 11, 11, 15]], none, 10⟩
  exact ⟨hR, hB, hT, hE, hD, h.1 hR, h.2.1 hB, h.2.2.1 hT, h.2.2.2.1 hE, h.2.2.2.2 hD⟩

/-! ## Claim C10 -/

/-- C10: `get_run_dir` creates the run directory as a side effect, so the
returned path exists in the returned filesystem; consequently
`run_exists` is true for every run identifier, the 404 branch of the
run-status endpoint can never be taken, and a status query for a run
whose `run_spec.json` does not exist fails at the spec-loading step
instead. -/
theorem c10_get_run_dir_creates (fs : FileSys) (runId : Name) :
    (get_run_dir fs runId).2 ∈ (get_run_dir fs runId).1 ∧
    (run_exists fs runId).2 = true ∧
    (get_run_status fs runId).2 ≠ .notFound ∧
    (runSpecPath runId ∉ fs → (get_run_status fs runId).2 = .missingSpec) := by
  have hmem : runDirPath runId ∈ (if runDirPath runId ∈ fs then fs else runDirPath runId :: fs) := by
    split_ifs with h
    · exact h
    · exact List.mem_cons_self _ _
  have hlen : runSpecPath runId ≠ runDirPath runId := by
    intro he
    have h2 := congrArg List.length he
    simp only [runSpecPath, List.length_append] at h2
    simp at h2
  refine ⟨?_, ?_, ?_, ?_⟩
  · simpa only [get_run_dir] using hmem
  · simp [run_exists, get_run_dir, pathExists, hmem]
  · simp only [get_run_status, get_run_dir, pathExists]
    by_cases hs : runSpecPath runId ∈ (if runDirPath runId ∈ fs then fs else runDirPath runId :: fs) <;>
      simp [hmem, hs]
  · intro hspec
    have hnotin : runSpecPath runId ∉
        (if runDirPath runId ∈ fs then fs else runDirPath runId :: fs) := by
      split_ifs with h
      · exact hspec
      · intro hin
        rcases List.mem_cons.mp hin with h1 | h1
        · exact hlen h1
        · exact hspec h1
    simp only [get_run_status, get_run_dir, pathExists]
    simp [hmem, hnotin]

/-- C10, witness: on the empty filesystem and a fresh run identifier the
status endpoint reaches the spec-loading failure, not the 404 branch. -/
theorem c10_witness :
    runSpecPath "run1".data ∉ ([] : FileSys) ∧
    (get_run_status ([] : FileSys) "run1".data).2 = .missingSpec :=
  ⟨by simp, (c10_get_run_dir_creates ([] : FileSys) "run1".data).2.2.2 (by simp)⟩
/-! ## Helper lemmas about adstock -/

lemma adstockGo_length (decay : ℝ) (l : List ℝ) : ∀ y, (adstockGo decay y l).length = l.length := by
  induction l with
  | nil => intro y; rfl
  | cons x r ih => intro y; simp [adstockGo, ih]

lemma apply_adstock_length (x : List ℝ) (decay : ℝ) (lag : ℕ) :
    (apply_adstock x decay lag).length = x.length := by
  cases x with
  | nil => rfl
  | cons x0 r => simp [apply_adstock, adstockGo_length]

lemma adstockGo_getD (d : ℝ) (l : List ℝ) : ∀ (y : ℝ) (t : ℕ), t < l.length →
    (adstockGo d y l).getD t 0 = l.getD t 0 + d * ((y :: adstockGo d y l).getD t 0) := by
  induction l with
  | nil => intro y t ht; simp at ht
  | cons x r ih =>
    intro y t ht
    cases t with
    | zero => simp [adstockGo]
    | succ s =>
      have hs : s < r.length := by simpa using ht
      simpa [adstockGo] using ih (x + d * y) s hs

lemma adstockGo_zero (l : List ℝ) : ∀ y, adstockGo 0 y l = l := by
  induction l with
  | nil => intro y; rfl
  | cons x r ih => intro y; simp [adstockGo, ih]

lemma adstockGo_one_const (c : ℝ) : ∀ (m : ℕ) (a : ℝ),
    adstockGo 1 a (List.replicate m c) = (List.range m).map (fun (j : ℕ) => ((j : ℝ) + 1) * c + a) := by
  intro m
  induction m with
  | zero => intro a; rfl
  | succ k ih =>
    intro a
    rw [List.replicate_succ]
    show (c + 1 * a) :: adstockGo 1 (c + 1 * a) (List.replicate k c) = _
    rw [ih (c + 1 * a), List.range_succ_eq_map, List.map_cons, List.map_map]
    congr 1
    · push_cast
      ring
    · apply List.map_congr_left
      intro j hj
      simp only [Function.comp_apply]
      push_cast
      ring

lemma getD_map_range (f : ℕ → ℝ) (m s : ℕ) (h : s < m) :
    ((List.range m).map f).getD s 0 = f s := by
  rw [List.getD_eq_getElem?_getD, List.getElem?_map, List.getElem?_range h]
  rfl

/-! ## Claim C7 -/

/-- C7: for every non-empty input series, `apply_adstock` preserves the
length, starts with `y[0] = x[0]`, and satisfies the geometric recursion
`y[t] = x[t] + decay * y[t-1]` for `1 ≤ t < n`; with decay 0 the output
equals the input, with decay 1 and constant input `c` the output at step
`t` is `c * (t + 1)`, and the result does not depend on the `max_lag`
argument. -/
theorem c7_apply_adstock_recursion :
    (∀ (x : List ℝ) (d : ℝ) (lag : ℕ), x ≠ [] →
        (apply_adstock x d lag).length = x.length ∧
        (apply_adstock x d lag).getD 0 0 = x.getD 0 0) ∧
    (∀ (x : List ℝ) (d : ℝ) (lag t : ℕ), t + 1 < x.length →
        (apply_adstock x d lag).getD (t + 1) 0
          = x.getD (t + 1) 0 + d * (apply_adstock x d lag).getD t 0) ∧
    (∀ (x : List ℝ) (lag : ℕ), x ≠ [] → apply_adstock x 0 lag = x) ∧
    (∀ (n : ℕ) (c : ℝ) (lag t : ℕ), t < n →
        (apply_adstock (List.replicate n c) 1 lag).getD t 0 = c * (t + 1)) ∧
    (∀ (x : List ℝ) (d : ℝ) (lag lag' : ℕ), apply_adstock x d lag = apply_adstock x d lag') := by
  refine ⟨?_, ?_, ?_, ?_, ?_⟩
  · intro x d lag hx
    refine ⟨apply_adstock_length x d lag, ?_⟩
    cases x with
    | nil => exact absurd rfl hx
    | cons x0 r => rfl
  · intro x d lag t ht
    cases x with
    | nil => simp at ht
    | cons x0 r =>
      have hr : t < r.length := by simpa using ht
      have h := adstockGo_getD d r x0 t hr
      simpa [apply_adstock] using h
  · intro x lag hx
    cases x with
    | nil => exact absurd rfl hx
    | cons x0 r => simp [apply_adstock, adstockGo_zero]
  · intro n c lag t ht
    cases n with
    | zero => simp at ht
    | succ m =>
      rw [List.replicate_succ]
      show (c :: adstockGo 1 c (List.replicate m c)).getD t 0 = _
      rw [adstockGo_one_const c m c]
      cases t with
      | zero => simp
      | succ s =>
        have hs : s < m := by omega
        show ((List.range m).map (fun (j : ℕ) => ((j : ℝ) + 1) * c + c)).getD s 0 = _
        rw [getD_map_range _ m s hs]
        push_cast
        ring
  · intro x d lag lag'
    rfl

/-- C7, witness: concrete evaluations of the recursion, the zero-decay
case, the unit-decay constant-input case and the `max_lag` independence
on short series. -/
theorem c7_witness :
    (apply_adstock [(3 : ℝ), 5] (1/2) 13).length = 2 ∧
    (apply_adstock [(3 : ℝ), 5] (1/2) 13).getD 0 0 = [(3 : ℝ), 5].getD 0 0 ∧
    (apply_adstock [(3 : ℝ), 5] (1/2) 13).getD 1 0
      = [(3 : ℝ), 5].getD 1 0 + (1/2) * (apply_adstock [(3 : ℝ), 5] (1/2) 13).getD 0 0 ∧
    apply_adstock [(3 : ℝ), 5] 0 13 = [(3 : ℝ), 5] ∧
    (apply_adstock (List.replicate 4 (2 : ℝ)) 1 13).getD 2 0 = 2 * ((2 : ℕ) + 1) ∧
    apply_adstock [(3 : ℝ), 5] (1/2) 13 = apply_adstock [(3 : ℝ), 5] (1/2) 7 := by
  have h := c7_apply_adstock_recursion
  have h1 := h.1 [(3 : ℝ), 5] (1/2) 13 (by simp)
  refine ⟨by simpa using h1.1, h1.2, ?_, h.2.2.1 [(3 : ℝ), 5] 13 (by simp), ?_,
    h.2.2.2.2 [(3 : ℝ), 5] (1/2) 13 7⟩
  · simpa using h.2.1 [(3 : ℝ), 5] (1/2) 13 0 (by norm_num)
  · simpa using h.2.2.2.1 4 2 13 2 (by norm_num)
/-! ## Claim C1 -/

/-- C1, counterexample: with intercept mean 0, no controls, and two
channels whose coefficient-times-feature terms are both `log 2`, the sum
`baseline_intercept + baseline_controls + channel contributions` is 2
while `y_predicted` is 3 — the decomposition identity fails exactly (not
merely within floating tolerance) as soon as two channels are present. -/
theorem c1_counterexample_two_channels :
    baselineInterceptC 0 + baselineControlsC 0 (totalControlLogAt [] [])
        + (channelContribsC 0 (totalControlLogAt [] []) [Real.log 2, Real.log 2] [1, 1]).sum
      = 2 ∧
    yPredictedC 0 (totalControlLogAt [] []) [Real.log 2, Real.log 2] [1, 1] = 3 ∧
    (2 : ℝ) ≠ 3 := by
  have hlog : Real.exp (Real.log 2) = 2 := Real.exp_log (by norm_num)
  have h0 : totalControlLogAt [] [] = 0 := rfl
  refine ⟨?_, ?_, by norm_num⟩
  · rw [h0]
    simp [baselineInterceptC, baselineControlsC, channelContribsC, channelContribC,
      Real.exp_zero, hlog]
    norm_num
  · rw [h0]
    simp only [yPredictedC, List.zipWith, List.sum_cons, List.sum_nil]
    rw [show (0 : ℝ) + 0 + (Real.log 2 * 1 + (Real.log 2 * 1 + 0))
        = Real.log 2 + Real.log 2 by ring]
    rw [Real.exp_add, hlog]
    norm_num

/-- C1, amended: the decomposition identity
`baseline_intercept + baseline_controls + Σ channel contributions =
y_predicted` holds exactly at every period for runs with at most one
channel (in particular the no-channel case), and
`residual = y_actual - y_predicted` always; with two or more channels the
identity fails in general (see the counterexample). -/
theorem c1_decomposition_single_channel (mu : ℝ) (gamma xc beta xs : List ℝ)
    (h : beta.length ≤ 1) (hlen : xs.length = beta.length) :
    baselineInterceptC mu + baselineControlsC mu (totalControlLogAt gamma xc)
        + (channelContribsC mu (totalControlLogAt gamma xc) beta xs).sum
      = yPredictedC mu (totalControlLogAt gamma xc) beta xs ∧
    (∀ yAct : ℝ, residualC yAct (yPredictedC mu (totalControlLogAt gamma xc) beta xs)
      = yAct - yPredictedC mu (totalControlLogAt gamma xc) beta xs) := by
  constructor
  · rcases beta with _ | ⟨b, _ | ⟨b2, r⟩⟩
    · rcases xs with _ | ⟨x, r'⟩
      · simp [baselineInterceptC, baselineControlsC, channelContribsC, yPredictedC]
      · simp at hlen
    · rcases xs with _ | ⟨x, _ | ⟨x2, r'⟩⟩
      · simp at hlen
      · simp only [baselineInterceptC, baselineControlsC, channelContribsC, channelContribC,
          yPredictedC, List.zipWith, List.sum_cons, List.sum_nil]
        ring_nf
      · simp at hlen
    · simp at h
  · intro yAct
    rfl
/-- C1, witness for the amended theorem: a single channel with
coefficient-times-feature term `1 * 2` satisfies the decomposition
identity exactly. -/
theorem c1_witness :
    [(1 : ℝ)].length ≤ 1 ∧ [(2 : ℝ)].length = [(1 : ℝ)].length ∧
    baselineInterceptC 0 + baselineControlsC 0 (totalControlLogAt [] [])
        + (channelContribsC 0 (totalControlLogAt [] []) [(1 : ℝ)] [(2 : ℝ)]).sum
      = yPredictedC 0 (totalControlLogAt [] []) [(1 : ℝ)] [(2 : ℝ)] :=
  ⟨by simp, by simp,
    (c1_decomposition_single_channel 0 [] [] [(1 : ℝ)] [(2 : ℝ)] (by simp) (by simp)).1⟩
/-! ## Claim C8 -/

/-- C8, counterexample: quantified over every `K` and `S` the claimed
properties fail on the code.  At `S = 0` (with the default `K = 1/2`)
the transform sends 0 to 1/2, not 0, because `0 ** 0 = 1`; at `K = 0`,
`S = 1` the value at `K` is 0, not 0.5 (the floored denominator); and at
`K = -1`, `S = 3` the transform is not monotone on non-negative inputs
and leaves `[0, 1)` (`s(1) = 10^10 > s(2) = 8/7`). -/
theorem c8_counterexample_hill_boundary :
    apply_hill_saturation (1/2) 0 0 = 1/2 ∧
    apply_hill_saturation 0 1 0 = 0 ∧
    ((1 : ℝ) ≤ 2 ∧ apply_hill_saturation (-1) 3 2 < apply_hill_saturation (-1) 3 1) ∧
    1 ≤ apply_hill_saturation (-1) 3 1 := by
  have hneg : (-1 : ℝ) ^ (3 : ℝ) = -1 := by
    rw [show (3 : ℝ) = ((3 : ℕ) : ℝ) by norm_num, Real.rpow_natCast]
    norm_num
  have h2c : (2 : ℝ) ^ (3 : ℝ) = 8 := by
    rw [show (3 : ℝ) = ((3 : ℕ) : ℝ) by norm_num, Real.rpow_natCast]
    norm_num
  have e1 : apply_hill_saturation (-1) 3 1 = 10 ^ 10 := by
    simp only [apply_hill_saturation]
    rw [show max (1 : ℝ) 0 = 1 from max_eq_left (by norm_num), hneg, Real.one_rpow]
    norm_num
  have e2 : apply_hill_saturation (-1) 3 2 = 8 / 7 := by
    simp only [apply_hill_saturation]
    rw [show max (2 : ℝ) 0 = 2 from max_eq_left (by norm_num), hneg, h2c]
    norm_num
  refine ⟨?_, ?_, ⟨by norm_num, ?_⟩, ?_⟩
  · simp only [apply_hill_saturation]
    rw [show max (0 : ℝ) 0 = 0 from max_self 0]
    rw [Real.rpow_zero, Real.rpow_zero]
    norm_num
  · simp only [apply_hill_saturation]
    rw [show max (0 : ℝ) 0 = 0 from max_self 0]
    rw [Real.rpow_one]
    norm_num
  · rw [e1, e2]
    norm_num
  · rw [e1]
    norm_num

/-- C8, amended: for a positive shape parameter `S` the Hill transform
sends 0 to 0 (for every `K`); and for positive `K` and positive `S` it is
monotonically increasing over non-negative inputs, sends the
half-saturation point `K` to exactly 0.5 (this part for every `S`), and
every output lies in `[0, 1)`. -/
theorem c8_hill_saturation_props :
    (∀ (K S : ℝ), 0 < S → apply_hill_saturation K S 0 = 0) ∧
    (∀ (K S x1 x2 : ℝ), 0 < K → 0 < S → 0 ≤ x1 → x1 ≤ x2 →
      apply_hill_saturation K S x1 ≤ apply_hill_saturation K S x2) ∧
    (∀ (K S : ℝ), 0 < K → apply_hill_saturation K S K = 1/2) ∧
    (∀ (K S x : ℝ), 0 < K → 0 < S →
      0 ≤ apply_hill_saturation K S x ∧ apply_hill_saturation K S x < 1) := by
  refine ⟨?_, ?_, ?_, ?_⟩
  · intro K S hS
    simp only [apply_hill_saturation]
    rw [show max (0 : ℝ) 0 = 0 from max_self 0, Real.zero_rpow (ne_of_gt hS)]
    simp
  · intro K S x1 x2 hK hS hx1 hle
    have hKS : 0 < K ^ S := Real.rpow_pos_of_pos hK S
    simp only [apply_hill_saturation]
    rw [max_eq_left hx1, max_eq_left (hx1.trans hle)]
    have ha : (0 : ℝ) ≤ x1 ^ S := Real.rpow_nonneg hx1 S
    have hab : x1 ^ S ≤ x2 ^ S := Real.rpow_le_rpow hx1 hle (le_of_lt hS)
    have hd1 : (0 : ℝ) < K ^ S + x1 ^ S := by linarith
    have hd2 : (0 : ℝ) < K ^ S + x2 ^ S := by linarith
    rw [if_neg (ne_of_gt hd1), if_neg (ne_of_gt hd2)]
    rw [div_le_div_iff₀ hd1 hd2]
    nlinarith
  · intro K S hK
    have hKS : 0 < K ^ S := Real.rpow_pos_of_pos hK S
    simp only [apply_hill_saturation]
    rw [max_eq_left (le_of_lt hK)]
    rw [if_neg (by positivity)]
    rw [div_eq_iff (by positivity)]
    ring
  · intro K S x hK hS
    have hKS : 0 < K ^ S := Real.rpow_pos_of_pos hK S
    simp only [apply_hill_saturation]
    have hx' : (0 : ℝ) ≤ max x 0 := le_max_right x 0
    have ha : (0 : ℝ) ≤ (max x 0) ^ S := Real.rpow_nonneg hx' S
    have hd : (0 : ℝ) < K ^ S + (max x 0) ^ S := by linarith
    rw [if_neg (ne_of_gt hd)]
    constructor
    · exact div_nonneg ha (le_of_lt hd)
    · rw [div_lt_one hd]
      linarith

/-- C8, witness for the amended theorem: at `K = 1`, `S = 1` the
transform sends 0 to 0, is monotone between 1 and 2, sends `K` to 0.5,
and its value at 3 lies in `[0, 1)`. -/
theorem c8_witness :
    apply_hill_saturation 1 1 0 = 0 ∧
    apply_hill_saturation 1 1 1 ≤ apply_hill_saturation 1 1 2 ∧
    apply_hill_saturation 1 1 1 = 1/2 ∧
    (0 ≤ apply_hill_saturation 1 1 3 ∧ apply_hill_saturation 1 1 3 < 1) :=
  ⟨c8_hill_saturation_props.1 1 1 one_pos,
    c8_hill_saturation_props.2.1 1 1 1 2 one_pos one_pos (by norm_num) (by norm_num),
    c8_hill_saturation_props.2.2.1 1 1 one_pos,
    c8_hill_saturation_props.2.2.2 1 1 3 one_pos one_pos⟩
/-! ## Helper lemmas about standardization -/

lemma sum_map_sub_div (v : List ℝ) (c s : ℝ) :
    (v.map (fun x => (x - c) / s)).sum = (v.sum - v.length * c) / s := by
  induction v with
  | nil => simp
  | cons x r ih =>
    rw [List.map_cons, List.sum_cons, ih, List.sum_cons, div_add_div_same, List.length_cons]
    congr 1
    push_cast
    ring

lemma sum_map_sq_div (v : List ℝ) (c s : ℝ) :
    (v.map (fun x => ((x - c) / s) ^ 2)).sum = (v.map (fun x => (x - c) ^ 2)).sum / s ^ 2 := by
  induction v with
  | nil => simp
  | cons x r ih =>
    rw [List.map_cons, List.sum_cons, ih, List.map_cons, List.sum_cons, div_pow,
      div_add_div_same]

lemma dfMean_standardized (v : List ℝ) (s : ℝ) (hn : v.length ≠ 0) :
    dfMean (v.map (fun x => (x - dfMean v) / s)) = 0 := by
  unfold dfMean
  rw [List.length_map, sum_map_sub_div]
  have hnn : ((v.length : ℝ)) ≠ 0 := Nat.cast_ne_zero.mpr hn
  have hz : v.sum - v.length * (v.sum / v.length) = 0 := by field_simp
  rw [hz]
  simp

lemma sampleVar_standardized (v : List ℝ) (s : ℝ) (hn : v.length ≠ 0) :
    sampleVar (v.map (fun x => (x - dfMean v) / s)) = sampleVar v / s ^ 2 := by
  unfold sampleVar
  rw [List.length_map, dfMean_standardized v s hn, List.map_map]
  have hmap : ((fun x => (x - (0 : ℝ)) ^ 2) ∘ fun x => (x - dfMean v) / s)
      = fun x => ((x - dfMean v) / s) ^ 2 := by
    funext x
    simp
  rw [hmap, sum_map_sq_div, div_right_comm]

lemma sampleVar_nonneg (v : List ℝ) (h2 : 2 ≤ v.length) : 0 ≤ sampleVar v := by
  unfold sampleVar
  apply div_nonneg
  · apply List.sum_nonneg
    intro y hy
    obtain ⟨x, hx, rfl⟩ := List.mem_map.mp hy
    positivity
  · have : (2 : ℝ) ≤ v.length := by exact_mod_cast h2
    linarith

/-! ## Claim C9 -/

/-- C9: for a retained column of length at least 2, the persisted scaler
mean is the column mean and the output column is exactly the rescaling by
the persisted parameters; when the column's standard deviation is at
least the `1e-10` epsilon the standardized column has mean 0 and standard
deviation 1 exactly; when it is below the epsilon the used std is 1, so
the output is the unscaled `x - mean`. -/
theorem c9_standardize_props (v : List ℝ) (h2 : 2 ≤ v.length) :
    ((standardizeColumn v).2.1 = dfMean v ∧
      (standardizeColumn v).1
        = v.map (fun x => (x - (standardizeColumn v).2.1) / (standardizeColumn v).2.2)) ∧
    (1/10^10 ≤ sampleStd v →
      dfMean (standardizeColumn v).1 = 0 ∧ sampleStd (standardizeColumn v).1 = 1) ∧
    (sampleStd v < 1/10^10 →
      (standardizeColumn v).2.2 = 1 ∧
      (standardizeColumn v).1 = v.map (fun x => x - dfMean v)) := by
  have hn : v.length ≠ 0 := by omega
  refine ⟨⟨rfl, rfl⟩, ?_, ?_⟩
  · intro heps
    have hs_pos : 0 < sampleStd v := lt_of_lt_of_le (by norm_num) heps
    have hcol : (standardizeColumn v).1 = v.map (fun x => (x - dfMean v) / sampleStd v) := by
      simp only [standardizeColumn]
      rw [if_neg (not_lt.mpr heps)]
    constructor
    · rw [hcol]
      exact dfMean_standardized v (sampleStd v) hn
    · rw [hcol]
      have hvarpos : 0 < sampleVar v := by
        have hsq := Real.sq_sqrt (sampleVar_nonneg v h2)
        unfold sampleStd at hs_pos
        nlinarith
      unfold sampleStd
      rw [sampleVar_standardized v (Real.sqrt (sampleVar v)) hn,
        Real.sq_sqrt (sampleVar_nonneg v h2), div_self (ne_of_gt hvarpos), Real.sqrt_one]
  · intro heps
    have hstd : (standardizeColumn v).2.2 = 1 := by
      simp only [standardizeColumn]
      rw [if_pos heps]
    refine ⟨hstd, ?_⟩
    have hcol : (standardizeColumn v).1 = v.map (fun x => (x - dfMean v) / 1) := by
      simp only [standardizeColumn]
      rw [if_pos heps]
    rw [hcol]
    simp

/-- C9, witness: the column `[0, 2]` (std `√2 ≥ 1e-10`) standardizes to
mean 0 and std 1; the constant column `[3, 3]` (std 0) takes the epsilon
branch, records std 1 and is returned as the unscaled `x - mean`. -/
theorem c9_witness :
    (2 ≤ ([0, 2] : List ℝ).length ∧ 1/10^10 ≤ sampleStd [(0 : ℝ), 2] ∧
      dfMean (standardizeColumn [(0 : ℝ), 2]).1 = 0 ∧
      sampleStd (standardizeColumn [(0 : ℝ), 2]).1 = 1) ∧
    (2 ≤ ([3, 3] : List ℝ).length ∧ sampleStd [(3 : ℝ), 3] < 1/10^10 ∧
      (standardizeColumn [(3 : ℝ), 3]).2.2 = 1 ∧
      (standardizeColumn [(3 : ℝ), 3]).1 = [(3 : ℝ), 3].map (fun x => x - dfMean [(3 : ℝ), 3])) := by
  have hvar2 : sampleVar [(0 : ℝ), 2] = 2 := by
    norm_num [sampleVar, dfMean]
  have heps2 : 1/10^10 ≤ sampleStd [(0 : ℝ), 2] := by
    unfold sampleStd
    rw [hvar2]
    have h0 : (0 : ℝ) ≤ Real.sqrt 2 := Real.sqrt_nonneg 2
    have hsq : Real.sqrt 2 ^ 2 = 2 := Real.sq_sqrt (by norm_num)
    nlinarith
  have hstd3 : sampleStd [(3 : ℝ), 3] < 1/10^10 := by
    have hvar3 : sampleVar [(3 : ℝ), 3] = 0 := by
      norm_num [sampleVar, dfMean]
    unfold sampleStd
    rw [hvar3, Real.sqrt_zero]
    norm_num
  have hA := c9_standardize_props [(0 : ℝ), 2] (by norm_num)
  have hB := c9_standardize_props [(3 : ℝ), 3] (by norm_num)
  exact ⟨⟨by norm_num, heps2, hA.2.1 heps2⟩, ⟨by norm_num, hstd3, hB.2.2 hstd3⟩⟩
/-! ## Helper lemmas about the feature-table schema -/

lemma name_ne_of_head {a b : Name} (h : a.head? ≠ b.head?) : a ≠ b :=
  fun he => h (congrArg List.head? he)

lemma xName_inj {a b : Name} (h : xName a = xName b) : a = b := by
  unfold xName at h
  exact List.append_cancel_left h

lemma map_fst_pair_map {α : Type} (l : List α) (f : α → Name) (g : α → List ℝ) :
    List.map Prod.fst (l.map (fun a => (f a, g a))) = l.map f := by
  rw [List.map_map]
  exact List.map_congr_left (fun a ha => rfl)

lemma cols_map_standardize (tb : Table) :
    cols (tb.map (fun c => if hasPrefix xStr c.1 then (c.1, (standardizeColumn c.2).1) else c))
      = cols tb := by
  unfold cols
  rw [List.map_map]
  apply List.map_congr_left
  intro c hc
  by_cases h : hasPrefix xStr c.1 <;> simp [h]

lemma build_features_result (spec : RunSpecF) (canonical : Table)
    (hP : periodStartName ∈ cols canonical) (hT : spec.targetCol ∈ cols canonical) :
    ∃ r, build_features spec canonical = some r ∧
      cols r.features =
        periodStartName :: yName :: yLogName ::
          ((spec.drivers.filter (fun d => decide (d ∈ cols canonical))).map xName ++
            (spec.controls.filter (fun c => decide (c ∈ cols canonical))).map xName ++
            (if spec.seasonality.enabled then
                (List.range (2 * spec.seasonality.K)).map seasonalityName else []) ++
            (if spec.trendEnabled then [trendName] else [])) ∧
      r.meta.driver_features
        = (spec.drivers.filter (fun d => decide (d ∈ cols canonical))).map xName ∧
      r.meta.control_features
        = (spec.controls.filter (fun c => decide (c ∈ cols canonical))).map xName := by
  unfold build_features
  rw [if_pos (⟨hP, hT⟩ : periodStartName ∈ cols canonical ∧ spec.targetCol ∈ cols canonical)]
  refine ⟨_, rfl, ?_, rfl, rfl⟩
  rw [cols_map_standardize]
  unfold cols
  simp only [List.map_cons, List.map_append, map_fst_pair_map,
    apply_ite (List.map (@Prod.fst Name (List ℝ))), List.map_nil]
lemma xName_head (d : Name) : (xName d).head? = some 'X' := rfl

lemma xName_ne_of_head (d : Name) {b : Name} (hb : b.head? ≠ some 'X') : xName d ≠ b :=
  fun h => hb (by rw [← h]; exact xName_head d)

lemma seasonalityName_head (i : ℕ) : (seasonalityName i).head? = some 's' := rfl

/-! ## Claim C5 -/

/-- C5: a configured driver or control column that is absent from the
canonical table does not make `build_features` raise: the build completes
(returns a result), and the missing column appears neither in the feature
table nor in the `driver_features` / `control_features` metadata lists —
it is silently skipped. -/
theorem c5_missing_columns_silently_skipped (spec : RunSpecF) (canonical : Table)
    (hP : periodStartName ∈ cols canonical) (hT : spec.targetCol ∈ cols canonical)
    (d c : Name) (hd : d ∈ spec.drivers) (hdnot : d ∉ cols canonical)
    (hc : c ∈ spec.controls) (hcnot : c ∉ cols canonical) :
    ∃ r, build_features spec canonical = some r ∧
      xName d ∉ cols r.features ∧ xName d ∉ r.meta.driver_features ∧
      xName c ∉ cols r.features ∧ xName c ∉ r.meta.control_features := by
  obtain ⟨r, hr, hcols, hdf, hcf⟩ := build_features_result spec canonical hP hT
  have hnotschema : ∀ a : Name, a ∉ cols canonical → xName a ∉ cols r.features := by
    intro a hanot hmem
    rw [hcols] at hmem
    simp only [List.mem_cons, List.mem_append, or_assoc] at hmem
    rcases hmem with h | h | h | h | h | h | h
    · exact xName_ne_of_head a (by decide) h
    · exact xName_ne_of_head a (by decide) h
    · exact xName_ne_of_head a (by decide) h
    · obtain ⟨k, hk, hkeq⟩ := List.mem_map.mp h
      obtain rfl := xName_inj hkeq
      exact hanot (of_decide_eq_true (List.mem_filter.mp hk).2)
    · obtain ⟨k, hk, hkeq⟩ := List.mem_map.mp h
      obtain rfl := xName_inj hkeq
      exact hanot (of_decide_eq_true (List.mem_filter.mp hk).2)
    · by_cases hSe : spec.seasonality.enabled = true
      · rw [if_pos hSe] at h
        obtain ⟨i, hi, hieq⟩ := List.mem_map.mp h
        exact xName_ne_of_head a (by rw [seasonalityName_head]; decide) hieq.symm
      · rw [if_neg hSe] at h
        simp at h
    · by_cases hTr : spec.trendEnabled = true
      · rw [if_pos hTr] at h
        have h1 := List.mem_singleton.mp h
        exact xName_ne_of_head a (by decide) h1
      · rw [if_neg hTr] at h
        simp at h
  refine ⟨r, hr, hnotschema d hdnot, ?_, hnotschema c hcnot, ?_⟩
  · rw [hdf]
    intro hmem
    obtain ⟨k, hk, hkeq⟩ := List.mem_map.mp hmem
    obtain rfl := xName_inj hkeq
    exact hdnot (of_decide_eq_true (List.mem_filter.mp hk).2)
  · rw [hcf]
    intro hmem
    obtain ⟨k, hk, hkeq⟩ := List.mem_map.mp hmem
    obtain rfl := xName_inj hkeq
    exact hcnot (of_decide_eq_true (List.mem_filter.mp hk).2)

/-- C5, witness: a canonical table with only `period_start` and `sales`,
and a run spec referencing the absent driver `act_tv` and the absent
control `ctrl_w`, builds features successfully with both columns absent
from the result. -/
theorem c5_witness :
    ∃ r, build_features
        ⟨.WEEK, "sales".data, ["act_tv".data], ["ctrl_w".data],
          ⟨1/2, [], 13⟩, ⟨false, true, 1/2, 1⟩, ⟨true, 2⟩, true, 12, 12⟩
        [(periodStartName, [0]), ("sales".data, [5])] = some r ∧
      xName "act_tv".data ∉ cols r.features ∧
      xName "act_tv".data ∉ r.meta.driver_features ∧
      xName "ctrl_w".data ∉ cols r.features ∧
      xName "ctrl_w".data ∉ r.meta.control_features :=
  c5_missing_columns_silently_skipped
    ⟨.WEEK, "sales".data, ["act_tv".data], ["ctrl_w".data],
      ⟨1/2, [], 13⟩, ⟨false, true, 1/2, 1⟩, ⟨true, 2⟩, true, 12, 12⟩
    [(periodStartName, [0]), ("sales".data, [5])]
    (by decide) (by decide) "act_tv".data "ctrl_w".data
    (by decide) (by decide) (by decide) (by decide)
/-! ## Helper lemmas about prefixes and canonical column names -/

/-- The perverse prefix `spend_X_` that the fallback spend resolution
produces on already-`X_`-prefixed channel names. -/
def spendXStr : Name := "spend_X_".data

lemma head_of_hasPrefix {p : Char} {ps s : Name} (h : hasPrefix (p :: ps) s = true) :
    s.head? = some p := by
  cases s with
  | nil => simp [hasPrefix] at h
  | cons c cs =>
    simp only [hasPrefix, Bool.and_eq_true, decide_eq_true_eq] at h
    rw [List.head?_cons, h.1]

lemma hasPrefix_append_self (p rest : Name) : hasPrefix p (p ++ rest) = true := by
  induction p with
  | nil => rfl
  | cons c cs ih =>
    show (decide (c = c) && hasPrefix cs (cs ++ rest)) = true
    rw [decide_eq_true rfl, Bool.true_and]
    exact ih

lemma mem_canonicalCols {raw : List Name} {c : Name} (h : c ∈ canonicalCols raw) :
    c = periodStartName ∨ c = salesName ∨ c = grainName ∨
      (c ∈ raw ∧ (hasPrefix actStr c = true ∨ hasPrefix ctrlStr c = true
        ∨ hasPrefix spendStr c = true)) := by
  unfold canonicalCols at h
  simp only [List.mem_cons, List.mem_append, List.mem_filter, List.not_mem_nil,
    or_false, or_assoc] at h
  rcases h with h | h | h | h | h | h
  · exact Or.inl h
  · exact Or.inr (Or.inl h)
  · exact Or.inr (Or.inr (Or.inr ⟨h.1, Or.inl h.2⟩))
  · exact Or.inr (Or.inr (Or.inr ⟨h.1, Or.inr (Or.inl h.2)⟩))
  · exact Or.inr (Or.inr (Or.inr ⟨h.1, Or.inr (Or.inr h.2)⟩))
  · exact Or.inr (Or.inr (Or.inl h))

lemma canonicalCols_head_ne_X {raw : List Name} {c : Name} (h : c ∈ canonicalCols raw) :
    c.head? ≠ some 'X' := by
  rcases mem_canonicalCols h with h1 | h1 | h1 | ⟨hr, hp | hp | hp⟩
  · rw [h1]; decide
  · rw [h1]; decide
  · rw [h1]; decide
  · rw [head_of_hasPrefix hp]; decide
  · rw [head_of_hasPrefix hp]; decide
  · rw [head_of_hasPrefix hp]; decide

lemma pyReplace_act_head (ch : Name) :
    (pyReplace actStr spendStr (xName ch)).head? = some 'X' := rfl

lemma spend_append_xName (d : Name) : spendStr ++ xName d = spendXStr ++ d := rfl

lemma name_ne_of_tail_head {a b : Name} (h : a.tail.head? ≠ b.tail.head?) : a ≠ b :=
  fun he => h (congrArg (fun l => l.tail.head?) he)

/-- The fallback spend name `spend_X_<d>` is never a canonical column when
no raw column starts with `spend_X_`. -/
lemma spendX_not_canonical {raw : List Name} (d : Name)
    (hNo : ∀ rc ∈ raw, hasPrefix spendXStr rc = false) :
    spendStr ++ xName d ∉ canonicalCols raw := by
  intro hmem
  rcases mem_canonicalCols hmem with h1 | h1 | h1 | ⟨hr, _⟩
  · refine absurd h1 (name_ne_of_head ?_)
    show some 's' ≠ some 'p'
    decide
  · refine absurd h1 (name_ne_of_tail_head ?_)
    show some 'p' ≠ some 'a'
    decide
  · refine absurd h1 (name_ne_of_head ?_)
    show some 's' ≠ some 'g'
    decide
  · have := hNo _ hr
    rw [spend_append_xName, hasPrefix_append_self] at this
    exact Bool.true_eq_false.mp this

/-! ## Claim C3 -/

/-- C3: the channel names recorded in the model metadata are the
already-`X_`-prefixed `driver_features`; consequently, for every driver
retained by the run, `compute_contributions` looks up the feature column
`X_X_<driver>`, which does not exist in the feature table, and the spend
resolution of `compute_roi_metrics` fails for every channel (both the
`act_`→`spend_` substitution and the `spend_` fallback miss the canonical
columns), producing the per-channel no-spend-column error entry. -/
theorem c3_double_prefix_lookup_fails (spec : RunSpecF) (canonical contributions : Table)
    (raw : List Name)
    (hCC : cols canonical = canonicalCols raw)
    (hP : periodStartName ∈ cols canonical) (hT : spec.targetCol ∈ cols canonical)
    (hNo : ∀ rc ∈ raw, hasPrefix spendXStr rc = false) :
    ∃ r, build_features spec canonical = some r ∧
      (trainModelMetadata r.meta).channelNames
        = (spec.drivers.filter (fun d => decide (d ∈ cols canonical))).map xName ∧
      ∀ ch ∈ (trainModelMetadata r.meta).channelNames,
        contribFeatureCol ch = xName ch ∧
        contribFeatureCol ch ∉ cols r.features ∧
        roiEntryFor canonical contributions ch = .noSpendCol (spendStr ++ ch) := by
  obtain ⟨r, hr, hcols, hdf, hcf⟩ := build_features_result spec canonical hP hT
  have hchan : (trainModelMetadata r.meta).channelNames
      = (spec.drivers.filter (fun d => decide (d ∈ cols canonical))).map xName := hdf
  refine ⟨r, hr, hchan, ?_⟩
  intro ch hch
  rw [hchan] at hch
  obtain ⟨d, hdmem, rfl⟩ := List.mem_map.mp hch
  refine ⟨rfl, ?_, ?_⟩
  · -- the looked-up column X_X_<driver> is not a feature column
    rw [hcols]
    intro hmem
    simp only [List.mem_cons, List.mem_append, or_assoc] at hmem
    rcases hmem with h | h | h | h | h | h | h
    · exact xName_ne_of_head _ (by decide) h
    · exact xName_ne_of_head _ (by decide) h
    · exact xName_ne_of_head _ (by decide) h
    · obtain ⟨k, hk, hkeq⟩ := List.mem_map.mp h
      have hkd := xName_inj hkeq
      subst hkd
      have hkcan : xName d ∈ cols canonical := of_decide_eq_true (List.mem_filter.mp hk).2
      rw [hCC] at hkcan
      exact canonicalCols_head_ne_X hkcan (xName_head d)
    · obtain ⟨k, hk, hkeq⟩ := List.mem_map.mp h
      have hkd := xName_inj hkeq
      subst hkd
      have hkcan : xName d ∈ cols canonical := of_decide_eq_true (List.mem_filter.mp hk).2
      rw [hCC] at hkcan
      exact canonicalCols_head_ne_X hkcan (xName_head d)
    · by_cases hSe : spec.seasonality.enabled = true
      · rw [if_pos hSe] at h
        obtain ⟨i, hi, hieq⟩ := List.mem_map.mp h
        exact xName_ne_of_head _ (by rw [seasonalityName_head]; decide) hieq.symm
      · rw [if_neg hSe] at h
        simp at h
    · by_cases hTr : spec.trendEnabled = true
      · rw [if_pos hTr] at h
        have h1 := List.mem_singleton.mp h
        exact xName_ne_of_head _ (by decide) h1
      · rw [if_neg hTr] at h
        simp at h
  · -- spend resolution fails
    have h1 : pyReplace actStr spendStr (xName d) ∉ cols canonical := by
      rw [hCC]
      intro hmem
      exact canonicalCols_head_ne_X hmem (pyReplace_act_head d)
    have h2 : resolveSpendCol (cols canonical) (xName d) = spendStr ++ xName d := by
      unfold resolveSpendCol
      rw [if_neg h1]
    have h3 : spendStr ++ xName d ∉ cols canonical := by
      rw [hCC]
      exact spendX_not_canonical d hNo
    unfold roiEntryFor
    rw [h2, if_neg h3]

/-- C3, witness: a raw panel with columns `entity_id`, `period_start`,
`sales`, `act_tv`, `spend_tv`; the canonical table has exactly the
canonical columns, the run uses driver `act_tv`, and both the feature
lookup and the spend resolution fail for the recorded channel name
`X_act_tv`. -/
theorem c3_witness :
    ∃ r, build_features
        ⟨.WEEK, salesName, ["act_tv".data], [],
          ⟨1/2, [], 13⟩, ⟨false, true, 1/2, 1⟩, ⟨true, 2⟩, true, 12, 12⟩
        [(periodStartName, [0]), (salesName, [1]), ("act_tv".data, [2]),
          ("spend_tv".data, [3]), (grainName, [0])] = some r ∧
      (trainModelMetadata r.meta).channelNames
        = ((["act_tv".data] : List Name).filter (fun d => decide (d ∈
            cols [(periodStartName, ([0] : List ℝ)), (salesName, [1]), ("act_tv".data, [2]),
              ("spend_tv".data, [3]), (grainName, [0])]))).map xName ∧
      ∀ ch ∈ (trainModelMetadata r.meta).channelNames,
        contribFeatureCol ch = xName ch ∧
        contribFeatureCol ch ∉ cols r.features ∧
        roiEntryFor
            [(periodStartName, [0]), (salesName, [1]), ("act_tv".data, [2]),
              ("spend_tv".data, [3]), (grainName, [0])] [] ch
          = .noSpendCol (spendStr ++ ch) :=
  c3_double_prefix_lookup_fails
    ⟨.WEEK, salesName, ["act_tv".data], [],
      ⟨1/2, [], 13⟩, ⟨false, true, 1/2, 1⟩, ⟨true, 2⟩, true, 12, 12⟩
    [(periodStartName, [0]), (salesName, [1]), ("act_tv".data, [2]),
      ("spend_tv".data, [3]), (grainName, [0])] []
    ["entity_id".data, periodStartName, salesName, "act_tv".data, "spend_tv".data]
    (by decide) (by decide) (by decide) (by decide)
/-! ## Claim C4 -/

/-- C4, counterexample: with spend columns present in `column_info` (so
the top-level error branch is not taken) but a channel name that no spend
column resolves for — the situation every real run with drivers is in,
by C3 — the ROI artifact has NO top-level error field and a NON-empty
per-channel map carrying a per-channel error entry, contradicting the
claim that a resolution failure for every channel yields a single
top-level error and an empty map. -/
theorem c4_counterexample_per_channel_errors :
    roiEntryFor
        [(periodStartName, [0]), (salesName, [1]), ("spend_display".data, [2])] []
        (xName "act_display".data)
      = .noSpendCol (spendStr ++ xName "act_display".data) ∧
    (compute_roi_metrics
        [(periodStartName, [0]), (salesName, [1]), ("spend_display".data, [2])] []
        ["spend_display".data] [xName "act_display".data]).topLevelError = false ∧
    (compute_roi_metrics
        [(periodStartName, [0]), (salesName, [1]), ("spend_display".data, [2])] []
        ["spend_display".data] [xName "act_display".data]).channels
      = [(xName "act_display".data,
          .noSpendCol (spendStr ++ xName "act_display".data))] :=
  ⟨rfl, rfl, rfl⟩

/-- C4, amended: a channel whose resolved spend column sums to 0 gets
reported ROI 0 (not infinite or NaN); the single top-level error with an
empty per-channel map occurs exactly when `column_info` lists no spend
columns at all; when spend columns exist, every channel gets its own
entry (per-channel error entries when resolution fails), never a
top-level error. -/
theorem c4_roi_zero_spend_and_error_shape (canonical contributions : Table) (ch : Name)
    (spendInfo channelNames : List Name)
    (hS : resolveSpendCol (cols canonical) ch ∈ cols canonical)
    (hC : channelColName ch ∈ cols contributions)
    (hZ : (getCol canonical (resolveSpendCol (cols canonical) ch)).sum = 0) :
    roiEntryFor canonical contributions ch
      = .ok 0 ((getCol contributions (channelColName ch)).sum) 0 ∧
    compute_roi_metrics canonical contributions [] channelNames
      = { topLevelError := true, channels := [] } ∧
    (spendInfo ≠ [] →
      (compute_roi_metrics canonical contributions spendInfo channelNames).topLevelError
          = false ∧
      (compute_roi_metrics canonical contributions spendInfo channelNames).channels
        = channelNames.map (fun c => (c, roiEntryFor canonical contributions c))) := by
  refine ⟨?_, rfl, ?_⟩
  · unfold roiEntryFor
    rw [if_pos hS, if_pos hC, hZ]
    simp
  · intro hne
    unfold compute_roi_metrics
    rw [if_neg hne]
    exact ⟨rfl, rfl⟩

/-- C4, witness: channel `act_tv` resolves the spend column `spend_tv`
whose single value is 0, so its reported ROI is 0; an empty spend list
yields the top-level error artifact; a non-empty spend list yields
per-channel entries with no top-level error. -/
theorem c4_witness :
    resolveSpendCol (cols [("act_tv".data, [(1 : ℝ)]), ("spend_tv".data, [0])]) "act_tv".data
        ∈ cols [("act_tv".data, [(1 : ℝ)]), ("spend_tv".data, [0])] ∧
    channelColName "act_tv".data ∈ cols [("channel_act_tv".data, [(5 : ℝ)])] ∧
    (getCol [("act_tv".data, [(1 : ℝ)]), ("spend_tv".data, [0])]
        (resolveSpendCol (cols [("act_tv".data, [(1 : ℝ)]), ("spend_tv".data, [0])])
          "act_tv".data)).sum = 0 ∧
    roiEntryFor [("act_tv".data, [(1 : ℝ)]), ("spend_tv".data, [0])]
        [("channel_act_tv".data, [(5 : ℝ)])] "act_tv".data
      = .ok 0 ((getCol [("channel_act_tv".data, [(5 : ℝ)])]
          (channelColName "act_tv".data)).sum) 0 ∧
    compute_roi_metrics [("act_tv".data, [(1 : ℝ)]), ("spend_tv".data, [0])]
        [("channel_act_tv".data, [(5 : ℝ)])] [] ["act_tv".data]
      = { topLevelError := true, channels := [] } := by
  have hS : resolveSpendCol (cols [("act_tv".data, [(1 : ℝ)]), ("spend_tv".data, [0])])
      "act_tv".data ∈ cols [("act_tv".data, [(1 : ℝ)]), ("spend_tv".data, [0])] := by
    decide
  have hC : channelColName "act_tv".data ∈ cols [("channel_act_tv".data, [(5 : ℝ)])] := by
    decide
  have hZ : (getCol [("act_tv".data, [(1 : ℝ)]), ("spend_tv".data, [0])]
      (resolveSpendCol (cols [("act_tv".data, [(1 : ℝ)]), ("spend_tv".data, [0])])
        "act_tv".data)).sum = 0 := by
    show ([(0 : ℝ)]).sum = 0
    simp
  have h := c4_roi_zero_spend_and_error_shape
    [("act_tv".data, [(1 : ℝ)]), ("spend_tv".data, [0])]
    [("channel_act_tv".data, [(5 : ℝ)])] "act_tv".data
    ["spend_tv".data] ["act_tv".data] hS hC hZ
  exact ⟨hS, hC, hZ, h.1, h.2.1⟩
end MMX
